import Mathlib

/-!
Shallow embedding of the FFmpeg-AMF encoder adapter
(`src/plugins/obs-ffmpeg/obs-ffmpeg-amf.c`) and proofs about it.

The underlying libavcodec session is treated as an opaque collaborator:
its return codes and produced packets enter the model as explicit inputs,
and its resources (codec session, frames) as abstract allocation state.
-/

namespace ObsFfmpegAmf

/-- Conversion of an integer to C `int` (32-bit two's-complement wraparound),
as happens on the `(int)obs_data_get_int(...)` casts and `int` arithmetic. -/
def wrap32 (x : ℤ) : ℤ := (x + 2147483648) % 4294967296 - 2147483648

/-- Conversion of an integer to C `int64_t` (64-bit two's-complement wraparound). -/
def wrap64 (x : ℤ) : ℤ :=
  (x + 9223372036854775808) % 18446744073709551616 - 9223372036854775808

theorem wrap32_eq_self (x : ℤ) (h1 : -2147483648 ≤ x) (h2 : x < 2147483648) :
    wrap32 x = x := by
  unfold wrap32; omega

theorem wrap64_eq_self (x : ℤ) (h1 : -9223372036854775808 ≤ x)
    (h2 : x < 9223372036854775808) : wrap64 x = x := by
  unfold wrap64; omega

/-- ASCII lower-casing of one character, as `astrcmpi` applies it. -/
def toLowerAscii (c : Char) : Char :=
  if 65 ≤ c.toNat ∧ c.toNat ≤ 90 then Char.ofNat (c.toNat + 32) else c

/-- `astrcmpi(a, b) == 0`: ASCII case-insensitive string equality. -/
def astrcmpiEq (a b : String) : Bool :=
  a.data.map toLowerAscii == b.data.map toLowerAscii

/-- `AVERROR(EAGAIN)`: no packet ready yet. -/
def AVERROR_EAGAIN : ℤ := -11

/-- `AVERROR_EOF`: session drained. -/
def AVERROR_EOF : ℤ := -541478725

theorem AVERROR_EAGAIN_neg : AVERROR_EAGAIN < 0 := by decide

theorem AVERROR_EOF_neg : AVERROR_EOF < 0 := by decide

/-- The settings keys read by `ffmpeg_amf_update` / `ffmpeg_amf_reconfigure`
(`obs_data_get_string` / `obs_data_get_int`; the latter yields a C `long long`).
`preset` and `profile` are passed through to codec-private options and are
not modelled further. -/
structure Settings where
  rate_control : String
  bitrate : ℤ
  cqp : ℤ
  keyint_sec : ℤ
deriving DecidableEq

/-- The fields of `struct video_output_info` and encoder geometry that
`ffmpeg_amf_update` reads (`fps_num`/`fps_den` are `uint32_t`). -/
structure VideoOutputInfo where
  fps_num : ℕ
  fps_den : ℕ
  width : ℕ
  height : ℕ
deriving DecidableEq

/-- The `AVCodecContext` fields written by the configuration code.
`bit_rate`, `rc_min_rate`, `rc_max_rate` are `int64_t`; `rc_buffer_size`,
`global_quality`, `gop_size` are `int`.  `priv_rc` records the value passed to
`av_opt_set(priv_data, "rc", ...)`.  Pixel-format, time-base and color
metadata fields are set through external library enums and are not modelled
(no claim refers to them). -/
structure AVCodecContext where
  bit_rate : ℤ
  rc_min_rate : ℤ
  rc_max_rate : ℤ
  rc_buffer_size : ℤ
  global_quality : ℤ
  gop_size : ℤ
  width : ℕ
  height : ℕ
  priv_rc : String
deriving DecidableEq

/-- Context as produced by `avcodec_alloc_context3` (libavcodec defaults for
the fields modelled here: `bit_rate` defaults to 200000, the rate-control
fields to 0). -/
def freshContext : AVCodecContext :=
  { bit_rate := 200000
    rc_min_rate := 0
    rc_max_rate := 0
    rc_buffer_size := 0
    global_quality := 0
    gop_size := 0
    width := 0
    height := 0
    priv_rc := "" }

/-- The gop-size computation of `ffmpeg_amf_update`:
`keyint_sec ? keyint_sec * voi->fps_num / voi->fps_den : 250`.
`keyint_sec` is `int`, `fps_num`/`fps_den` are `uint32_t`, so the C expression
is evaluated in `unsigned int` arithmetic (truncating division) and the result
is stored into the `int` field `gop_size`. -/
def gopOf (keyint_sec : ℤ) (fps_num fps_den : ℕ) : ℤ :=
  if keyint_sec ≠ 0 then
    wrap32 (Int.ofNat ((keyint_sec % 4294967296).toNat * fps_num % 4294967296 / fps_den))
  else 250

/-- `ffmpeg_amf_update`: translates settings into the codec context.
Returns the updated context (the trailing `ffmpeg_amf_init_codec` call is
modelled separately, at the allocation level). -/
def ffmpeg_amf_update (ctx : AVCodecContext) (s : Settings) (voi : VideoOutputInfo) :
    AVCodecContext :=
  let bitrate0 : ℤ := wrap32 s.bitrate
  let cqp : ℤ := wrap32 s.cqp
  let keyint_sec : ℤ := wrap32 s.keyint_sec
  let step1 : AVCodecContext × ℤ :=
    if astrcmpiEq s.rate_control "cqp" then
      ({ ctx with priv_rc := "cqp", global_quality := cqp }, 0)
    else
      let rate : ℤ := bitrate0 * 1000
      let ctx1 :=
        if astrcmpiEq s.rate_control "vbr" then
          { ctx with priv_rc := "vbr_peak" }
        else
          { ctx with priv_rc := "cbr", rc_min_rate := rate }
      ({ ctx1 with rc_max_rate := rate }, bitrate0)
  let ctx2 := step1.1
  let bitrate := step1.2
  let rate : ℤ := wrap32 (bitrate * 1000)
  { ctx2 with
    bit_rate := rate
    rc_buffer_size := rate
    width := voi.width
    height := voi.height
    gop_size := gopOf keyint_sec voi.fps_num voi.fps_den }

/-- `ffmpeg_amf_reconfigure`: live settings update on an open session.
Returns the C function's boolean result together with the updated context. -/
def ffmpeg_amf_reconfigure (ctx : AVCodecContext) (s : Settings) :
    Bool × AVCodecContext :=
  let bitrate : ℤ := s.bitrate
  let cbr := astrcmpiEq s.rate_control "CBR"
  let vbr := astrcmpiEq s.rate_control "VBR"
  if cbr || vbr then
    let rate : ℤ := wrap64 (bitrate * 1000)
    (true, { ctx with bit_rate := rate, rc_max_rate := rate })
  else
    (true, ctx)

/-- The `AVPacket` data visible to the adapter: payload bytes, timestamps,
flags. -/
structure AVPacket where
  data : List ℕ
  pts : ℤ
  dts : ℤ
  flags : ℕ
deriving DecidableEq

/-- `AVPacket pkt = {0}` followed by `av_init_packet`. -/
def emptyAVPacket : AVPacket := ⟨[], 0, 0, 0⟩

/-- `AV_PKT_FLAG_KEY`. -/
def AV_PKT_FLAG_KEY : ℕ := 1

/-- The external (libavcodec) inputs to one `ffmpeg_amf_encode` call:
the `avcodec_send_frame` result, the `avcodec_receive_packet` result and
packet (read only when the send succeeded), and the context's extradata at
the time of the call. -/
structure EncodeIO where
  sendRet : ℤ
  recvRet : ℤ
  recvPkt : AVPacket
  extradata : List ℕ
deriving DecidableEq

/-- The encoder-session state that `ffmpeg_amf_encode` mutates:
the `first_packet` flag and the `header` and `buffer` darrays. -/
structure EncState where
  first_packet : Bool
  header : List ℕ
  buffer : List ℕ
deriving DecidableEq

/-- Session state right after a successful create (`bzalloc` zeroes the
darrays; `first_packet` is set to true). -/
def freshEncState : EncState := ⟨true, [], []⟩

/-- The `struct encoder_packet` output fields populated on a produced packet. -/
structure EncoderPacket where
  pts : ℤ
  dts : ℤ
  data : List ℕ
  keyframe : Bool
deriving DecidableEq

/-- `ffmpeg_amf_encode` (new-API branch: `avcodec_send_frame` +
`avcodec_receive_packet`).  `none` models the C function returning `false`
(hard failure); `some (st, p)` models returning `true` with updated session
state and `p = some pkt` iff `*received_packet` was set to true.
The `copy_data` call into the internal frame is modelled separately. -/
def ffmpeg_amf_encode (st : EncState) (io : EncodeIO) :
    Option (EncState × Option EncoderPacket) :=
  let retPkt : ℤ × AVPacket :=
    if io.sendRet = 0 then (io.recvRet, io.recvPkt) else (io.sendRet, emptyAVPacket)
  let got_packet : Bool := retPkt.1 == 0
  let av_pkt := retPkt.2
  let ret : ℤ :=
    if retPkt.1 = AVERROR_EOF ∨ retPkt.1 = AVERROR_EAGAIN then 0 else retPkt.1
  if ret < 0 then
    none
  else if got_packet && av_pkt.data.length != 0 then
    let st1 :=
      if st.first_packet then
        { st with
          header := if io.extradata.length ≠ 0 then io.extradata else st.header
          first_packet := false }
      else st
    let st2 := { st1 with buffer := av_pkt.data }
    some (st2, some ⟨av_pkt.pts, av_pkt.dts, st2.buffer,
                    (av_pkt.flags &&& AV_PKT_FLAG_KEY) != 0⟩)
  else
    some (st, none)

/-- The session state after one encode call (a failed call leaves the
session state unchanged). -/
def encodeStep (st : EncState) (io : EncodeIO) : EncState :=
  match ffmpeg_amf_encode st io with
  | none => st
  | some (st1, _) => st1

/-- Session state after a sequence of encode calls. -/
def runTrace (st : EncState) (t : List EncodeIO) : EncState :=
  t.foldl encodeStep st

/-- Whether one encode call produces a non-empty packet (this depends only on
the call's external inputs, not on the session state). -/
def producesB (io : EncodeIO) : Bool :=
  io.sendRet == 0 && io.recvRet == 0 && io.recvPkt.data.length != 0

/-- `MAX_AV_PLANES`. -/
def MAX_AV_PLANES : ℕ := 8

/-- The pixel formats the adapter can configure
(`obs_to_ffmpeg_video_format` of the accepted formats I420 / NV12). -/
inductive AVPixelFormat where
  | yuv420p
  | nv12
deriving DecidableEq

/-- Vertical chroma shift, as returned by `av_pix_fmt_get_chroma_sub_sample`
(log2_chroma_h from the libavutil descriptor table). -/
def vChromaShift : AVPixelFormat → ℕ
  | AVPixelFormat.yuv420p => 1
  | AVPixelFormat.nv12 => 1

/-- Caller-supplied `struct encoder_frame`: per-plane byte arrays (a plane
may be absent, i.e. a null pointer) with per-plane row strides. -/
structure EncoderFrame where
  data : ℕ → Option (ℕ → ℕ)
  linesize : ℕ → ℕ

/-- The encoder's internally allocated `AVFrame` buffer: per-plane byte
arrays with per-plane (alignment-padded) row strides. -/
structure AVFrameBuf where
  data : ℕ → (ℕ → ℕ)
  linesize : ℕ → ℕ

/-- The inner row loop of `copy_data` for one plane: for each row
`y < rows`, `memcpy(dst + y*dstStride, src + y*srcStride, bytes)`. -/
def copyRows (dst src : ℕ → ℕ) (dstStride srcStride bytes : ℕ) : ℕ → (ℕ → ℕ)
  | 0 => dst
  | rows + 1 =>
    let d := copyRows dst src dstStride srcStride bytes rows
    fun i =>
      if rows * dstStride ≤ i ∧ i < rows * dstStride + bytes then
        src (rows * srcStride + (i - rows * dstStride))
      else d i

/-- Chroma-subsampled plane height: `height >> (plane ? v_chroma_shift : 0)`. -/
def planeHeight (height : ℕ) (format : AVPixelFormat) (plane : ℕ) : ℕ :=
  height >>> (if plane = 0 then 0 else vChromaShift format)

/-- `copy_data`: copies each plane present in the source frame into the
destination picture, `min(src_stride, dst_stride)` bytes per row, for the
chroma-subsampled plane height derived from the destination pixel format. -/
def copy_data (pic : AVFrameBuf) (frame : EncoderFrame) (height : ℕ)
    (format : AVPixelFormat) : AVFrameBuf :=
  { pic with
    data := fun plane =>
      if plane < MAX_AV_PLANES then
        match frame.data plane with
        | none => pic.data plane
        | some src =>
          let frame_rowsize := frame.linesize plane
          let pic_rowsize := pic.linesize plane
          let bytes := if frame_rowsize < pic_rowsize then frame_rowsize else pic_rowsize
          copyRows (pic.data plane) src pic_rowsize frame_rowsize bytes
            (planeHeight height format plane)
      else pic.data plane }

/-- One live packet queued inside the opaque codec session. -/
structure AMFSession where
  pending : List AVPacket
deriving DecidableEq

/-- `avcodec_receive_packet` on the opaque session: pops the next queued
packet, or reports `AVERROR_EOF` when the session has no more output. -/
def receive_packet (s : AMFSession) : ℤ × AVPacket × AMFSession :=
  match s.pending with
  | [] => (AVERROR_EOF, emptyAVPacket, s)
  | p :: rest => (0, p, ⟨rest⟩)

/-- The drain loop of `ffmpeg_amf_destroy`: call `avcodec_receive_packet`
until it returns a negative result, unreffing (discarding) each retrieved
packet.  Fuel bounds the iteration so the definition is total; fuel
`pending.length + 1` is always enough. -/
def drainFuel : ℕ → AMFSession → AMFSession × List AVPacket
  | 0, s => (s, [])
  | fuel + 1, s =>
    let r := receive_packet s
    if r.1 < 0 then (s, [])
    else
      let rest := drainFuel fuel r.2.2
      (rest.1, r.2.1 :: rest.2)

/-- Allocation-level view of `struct ffmpeg_amf_encoder`: which resources
are currently allocated.  `pending` is the opened codec session's queued
output (meaningful only once opened); `buffer`/`header` model the darrays
(`[]` = no allocation, as after `bzalloc` or `da_free`). -/
structure AMFEncoder where
  structAlloc : Bool
  contextAlloc : Bool
  pending : List AVPacket
  vframeAlloc : Bool
  buffer : List ℕ
  header : List ℕ
  first_packet : Bool
  initialized : Bool
deriving DecidableEq

/-- Number of outstanding allocations held by an encoder value. -/
def outstandingAllocs (e : AMFEncoder) : ℕ :=
  (if e.structAlloc then 1 else 0) + (if e.contextAlloc then 1 else 0) +
  (if e.vframeAlloc then 1 else 0) +
  (if e.buffer.length ≠ 0 then 1 else 0) + (if e.header.length ≠ 0 then 1 else 0)

/-- `ffmpeg_amf_destroy`: drain the session if it was initialized, then
`avcodec_close` (releases the codec session), `av_frame_free`, `da_free`
the two darrays, and `bfree` the struct.  Returns the final allocation
state together with the list of drained-and-discarded packets. -/
def ffmpeg_amf_destroy (enc : AMFEncoder) : AMFEncoder × List AVPacket :=
  let drained :=
    if enc.initialized then
      (drainFuel (enc.pending.length + 1) ⟨enc.pending⟩).2
    else []
  ({ enc with
     pending := []
     contextAlloc := false
     vframeAlloc := false
     buffer := []
     header := []
     structAlloc := false
     initialized := false }, drained)

/-- The external (libavcodec / allocator) outcomes that decide the
creation path: whether `avcodec_find_encoder_by_name` finds the codec,
whether `avcodec_alloc_context3` succeeds, the `avcodec_open2` result,
whether `av_frame_alloc` succeeds, and the `av_frame_get_buffer` result. -/
structure CreateEnv where
  codecFound : Bool
  contextAllocOk : Bool
  openRet : ℤ
  vframeAllocOk : Bool
  frameBufRet : ℤ
deriving DecidableEq

/-- `ffmpeg_amf_init_codec` at the allocation level: open the codec
session, allocate the video frame, allocate its buffers; `false` on any
failure (leaving the partially constructed state behind for the caller to
tear down). -/
def ffmpeg_amf_init_codec (env : CreateEnv) (enc : AMFEncoder) :
    Bool × AMFEncoder :=
  if env.openRet < 0 then (false, enc)
  else if ¬env.vframeAllocOk then (false, enc)
  else
    let enc1 := { enc with vframeAlloc := true }
    if env.frameBufRet < 0 then (false, enc1)
    else (true, { enc1 with initialized := true })

/-- `ffmpeg_amf_create` at the allocation level: `bzalloc` the struct, find
the codec, allocate the context, run update/init; on any failure call
`ffmpeg_amf_destroy` on the partial state and return null.  The second
component is the number of allocations left behind on the failure path
(0 when creation succeeded and the caller owns the session). -/
def ffmpeg_amf_create (env : CreateEnv) : Option AMFEncoder × ℕ :=
  let enc0 : AMFEncoder :=
    { structAlloc := true, contextAlloc := false, pending := [],
      vframeAlloc := false, buffer := [], header := [],
      first_packet := true, initialized := false }
  if ¬env.codecFound then
    (none, outstandingAllocs (ffmpeg_amf_destroy enc0).1)
  else if ¬env.contextAllocOk then
    (none, outstandingAllocs (ffmpeg_amf_destroy enc0).1)
  else
    let enc1 := { enc0 with contextAlloc := true }
    let upd := ffmpeg_amf_init_codec env enc1
    if upd.1 then (some upd.2, 0)
    else (none, outstandingAllocs (ffmpeg_amf_destroy upd.2).1)

/-! ## Claim C1: rate-control mode mapping in `ffmpeg_amf_update` -/

/-- C1: configuration maps the rate-control mode to codec parameters:
mode "cqp" clears the bitrate fields and sets `global_quality` to the input
quantization level; mode "vbr" sets only `rc_max_rate` to `bitrate*1000`;
mode "cbr" and every unrecognized rate-control string set both `rc_min_rate`
and `rc_max_rate` to `bitrate*1000`. -/
theorem amf_update_rate_control_modes (s : Settings) (voi : VideoOutputInfo)
    (hb1 : -2147483648 ≤ s.bitrate) (hb2 : s.bitrate < 2147483648)
    (hq1 : -2147483648 ≤ s.cqp) (hq2 : s.cqp < 2147483648) :
    (astrcmpiEq s.rate_control "cqp" = true →
      (ffmpeg_amf_update freshContext s voi).bit_rate = 0 ∧
      (ffmpeg_amf_update freshContext s voi).rc_buffer_size = 0 ∧
      (ffmpeg_amf_update freshContext s voi).rc_min_rate = 0 ∧
      (ffmpeg_amf_update freshContext s voi).rc_max_rate = 0 ∧
      (ffmpeg_amf_update freshContext s voi).global_quality = s.cqp) ∧
    (astrcmpiEq s.rate_control "cqp" = false →
      astrcmpiEq s.rate_control "vbr" = true →
      (ffmpeg_amf_update freshContext s voi).rc_max_rate = s.bitrate * 1000 ∧
      (ffmpeg_amf_update freshContext s voi).rc_min_rate = 0) ∧
    (astrcmpiEq s.rate_control "cqp" = false →
      astrcmpiEq s.rate_control "vbr" = false →
      (ffmpeg_amf_update freshContext s voi).rc_min_rate = s.bitrate * 1000 ∧
      (ffmpeg_amf_update freshContext s voi).rc_max_rate = s.bitrate * 1000) := by
  have hb := wrap32_eq_self s.bitrate hb1 hb2
  have hq := wrap32_eq_self s.cqp hq1 hq2
  have h0 : wrap32 (0 : ℤ) = 0 := by unfold wrap32; norm_num
  refine ⟨fun h => ?_, fun h1 h2 => ?_, fun h1 h2 => ?_⟩
  · simp [ffmpeg_amf_update, h, hb, hq, h0, freshContext]
  · simp [ffmpeg_amf_update, h1, h2, hb, hq, h0, freshContext]
  · simp [ffmpeg_amf_update, h1, h2, hb, hq, h0, freshContext]

theorem amf_update_rate_control_modes_witness :
    (ffmpeg_amf_update freshContext ⟨"CQP", 2500, 20, 2⟩
        ⟨30000, 1001, 1920, 1080⟩).global_quality = 20 ∧
    (ffmpeg_amf_update freshContext ⟨"CQP", 2500, 20, 2⟩
        ⟨30000, 1001, 1920, 1080⟩).rc_max_rate = 0 :=
  ⟨((amf_update_rate_control_modes ⟨"CQP", 2500, 20, 2⟩ ⟨30000, 1001, 1920, 1080⟩
      (by decide) (by decide) (by decide) (by decide)).1 (by decide)).2.2.2.2,
   ((amf_update_rate_control_modes ⟨"CQP", 2500, 20, 2⟩ ⟨30000, 1001, 1920, 1080⟩
      (by decide) (by decide) (by decide) (by decide)).1 (by decide)).2.2.2.1⟩

/-! ## Claim C2: keyframe interval (gop size) -/

/-- C2 (counterexample): with `keyint_sec = 2` and frame rate 30000/1001 the
code yields gop size 59 (truncating integer division), while
`round(2*30000/1001) = 60`. -/
theorem amf_gop_rounding_cex :
    (ffmpeg_amf_update freshContext ⟨"CBR", 2500, 20, 2⟩
        ⟨30000, 1001, 1920, 1080⟩).gop_size = 59 ∧
    round ((2 * 30000 : ℚ) / 1001) = 60 ∧ (59 : ℤ) ≠ 60 := by
  refine ⟨by decide, ?_, by decide⟩
  rw [round_eq, Int.floor_eq_iff]
  norm_num

/-- C2 (amended): the gop size in frames is the **truncating** integer
division `keyint_sec * fps_num / fps_den` when `keyint_sec` is non-zero
(so 2 with 30000/1001 yields 59, not round(2*30000/1001) = 60), exactly 250
when `keyint_sec = 0`, and repeating configuration with the same inputs
yields the same gop size. -/
theorem amf_gop_size_spec (s : Settings) (voi : VideoOutputInfo) :
    (s.keyint_sec = 0 → (ffmpeg_amf_update freshContext s voi).gop_size = 250) ∧
    (0 < s.keyint_sec → s.keyint_sec < 2147483648 →
      s.keyint_sec.toNat * voi.fps_num < 4294967296 →
      s.keyint_sec.toNat * voi.fps_num / voi.fps_den < 2147483648 →
      (ffmpeg_amf_update freshContext s voi).gop_size
        = Int.ofNat (s.keyint_sec.toNat * voi.fps_num / voi.fps_den)) ∧
    (ffmpeg_amf_update (ffmpeg_amf_update freshContext s voi) s voi).gop_size
      = (ffmpeg_amf_update freshContext s voi).gop_size := by
  refine ⟨fun h => ?_, fun hk1 hk2 hnum hdiv => ?_, ?_⟩
  · have hw : wrap32 s.keyint_sec = 0 := by rw [h]; unfold wrap32; norm_num
    simp [ffmpeg_amf_update, gopOf, hw]
  · have hw : wrap32 s.keyint_sec = s.keyint_sec :=
      wrap32_eq_self s.keyint_sec (by omega) hk2
    have hne : s.keyint_sec ≠ 0 := by omega
    have hmod : s.keyint_sec % 4294967296 = s.keyint_sec := by omega
    have hmod2 : s.keyint_sec.toNat * voi.fps_num % 4294967296
        = s.keyint_sec.toNat * voi.fps_num := Nat.mod_eq_of_lt hnum
    simp only [ffmpeg_amf_update, gopOf, hw, hmod, hmod2, if_pos hne]
    refine wrap32_eq_self _ ?_ ?_ <;> rw [Int.ofNat_eq_natCast]
    · exact le_trans (by norm_num) (Int.natCast_nonneg _)
    · exact_mod_cast hdiv
  · simp [ffmpeg_amf_update]

theorem amf_gop_size_spec_witness :
    0 < (2 : ℤ) ∧
    (ffmpeg_amf_update freshContext ⟨"CBR", 2500, 20, 2⟩
        ⟨30000, 1001, 1920, 1080⟩).gop_size
      = Int.ofNat (Int.toNat 2 * 30000 / 1001) :=
  ⟨by decide,
   (amf_gop_size_spec ⟨"CBR", 2500, 20, 2⟩ ⟨30000, 1001, 1920, 1080⟩).2.1
     (by decide) (by decide) (by decide) (by decide)⟩

/-! ## Claim C9: bit_rate and rc_buffer_size population -/

/-- C9 (counterexample): in CQP mode with input bitrate 2500 the code sets
`bit_rate` and `rc_buffer_size` to 0, not to `bitrate*1000 = 2500000`:
the CQP branch zeroes the local `bitrate` before the common assignment. -/
theorem amf_bitrate_fields_cqp_cex :
    (ffmpeg_amf_update freshContext ⟨"CQP", 2500, 20, 2⟩
        ⟨30000, 1001, 1920, 1080⟩).bit_rate = 0 ∧
    (ffmpeg_amf_update freshContext ⟨"CQP", 2500, 20, 2⟩
        ⟨30000, 1001, 1920, 1080⟩).rc_buffer_size = 0 ∧
    (0 : ℤ) ≠ 2500 * 1000 := ⟨by decide, by decide, by decide⟩

/-- C9 (amended): for every rate-control mode **other than** constant-quality,
configuration populates `bit_rate` and `rc_buffer_size` with `bitrate*1000`;
in CQP mode both fields are set to 0 (the bitrate is cleared first). -/
theorem amf_bitrate_buffer_fields (s : Settings) (voi : VideoOutputInfo)
    (h1 : -2147483648 ≤ s.bitrate * 1000) (h2 : s.bitrate * 1000 < 2147483648) :
    (astrcmpiEq s.rate_control "cqp" = false →
      (ffmpeg_amf_update freshContext s voi).bit_rate = s.bitrate * 1000 ∧
      (ffmpeg_amf_update freshContext s voi).rc_buffer_size = s.bitrate * 1000) ∧
    (astrcmpiEq s.rate_control "cqp" = true →
      (ffmpeg_amf_update freshContext s voi).bit_rate = 0 ∧
      (ffmpeg_amf_update freshContext s voi).rc_buffer_size = 0) := by
  have hb : wrap32 s.bitrate = s.bitrate :=
    wrap32_eq_self s.bitrate (by omega) (by omega)
  have hr : wrap32 (s.bitrate * 1000) = s.bitrate * 1000 :=
    wrap32_eq_self _ h1 h2
  have h0 : wrap32 (0 : ℤ) = 0 := by unfold wrap32; norm_num
  refine ⟨fun h => ?_, fun h => ?_⟩ <;>
    simp [ffmpeg_amf_update, h, hb, hr, h0]

theorem amf_bitrate_buffer_fields_witness :
    (ffmpeg_amf_update freshContext ⟨"CBR", 2500, 20, 2⟩
        ⟨30000, 1001, 1920, 1080⟩).bit_rate = 2500 * 1000 :=
  ((amf_bitrate_buffer_fields ⟨"CBR", 2500, 20, 2⟩ ⟨30000, 1001, 1920, 1080⟩
      (by decide) (by decide)).1 (by decide)).1

/-! ## Claim C6: reconfigure contract -/

/-- C6: `ffmpeg_amf_reconfigure` always returns success; when the
rate-control mode is CBR or VBR (case-insensitive) it sets `bit_rate` and
`rc_max_rate` to `bitrate*1000` leaving all other fields unchanged, and for
any other mode (in particular CQP) it leaves every context field unchanged. -/
theorem amf_reconfigure_spec (ctx : AVCodecContext) (s : Settings)
    (h1 : -9223372036854775808 ≤ s.bitrate * 1000)
    (h2 : s.bitrate * 1000 < 9223372036854775808) :
    (ffmpeg_amf_reconfigure ctx s).1 = true ∧
    ((astrcmpiEq s.rate_control "CBR" || astrcmpiEq s.rate_control "VBR") = true →
      (ffmpeg_amf_reconfigure ctx s).2.bit_rate = s.bitrate * 1000 ∧
      (ffmpeg_amf_reconfigure ctx s).2.rc_max_rate = s.bitrate * 1000 ∧
      (ffmpeg_amf_reconfigure ctx s).2.rc_min_rate = ctx.rc_min_rate ∧
      (ffmpeg_amf_reconfigure ctx s).2.rc_buffer_size = ctx.rc_buffer_size ∧
      (ffmpeg_amf_reconfigure ctx s).2.global_quality = ctx.global_quality ∧
      (ffmpeg_amf_reconfigure ctx s).2.gop_size = ctx.gop_size ∧
      (ffmpeg_amf_reconfigure ctx s).2.width = ctx.width ∧
      (ffmpeg_amf_reconfigure ctx s).2.height = ctx.height ∧
      (ffmpeg_amf_reconfigure ctx s).2.priv_rc = ctx.priv_rc) ∧
    ((astrcmpiEq s.rate_control "CBR" || astrcmpiEq s.rate_control "VBR") = false →
      (ffmpeg_amf_reconfigure ctx s).2 = ctx) := by
  have hr : wrap64 (s.bitrate * 1000) = s.bitrate * 1000 := wrap64_eq_self _ h1 h2
  refine ⟨?_, fun h => ?_, fun h => ?_⟩
  · simp only [ffmpeg_amf_reconfigure]
    split <;> rfl
  · simp_all [ffmpeg_amf_reconfigure, hr]
  · simp_all [ffmpeg_amf_reconfigure, hr]

theorem amf_reconfigure_spec_witness :
    (ffmpeg_amf_reconfigure freshContext ⟨"CQP", 6000, 20, 2⟩).2 = freshContext :=
  (amf_reconfigure_spec freshContext ⟨"CQP", 6000, 20, 2⟩
      (by decide) (by decide)).2.2 (by decide)

/-! ## Claim C10: reconfigure after CBR configuration leaves rc_min_rate stale -/

/-- C10: after configuration in CBR mode with bitrate `b1` (so
`rc_min_rate = rc_max_rate = b1*1000`), a reconfigure with mode CBR and a
different bitrate `b2` updates `bit_rate` and `rc_max_rate` to `b2*1000` but
leaves `rc_min_rate` at `b1*1000`, so the minimum rate no longer equals the
maximum rate. -/
theorem amf_reconfigure_min_max_divergence (s1 s2 : Settings)
    (voi : VideoOutputInfo)
    (hc1 : astrcmpiEq s1.rate_control "cqp" = false)
    (hv1 : astrcmpiEq s1.rate_control "vbr" = false)
    (hc2 : astrcmpiEq s2.rate_control "CBR" = true)
    (hb1a : -2147483648 ≤ s1.bitrate) (hb1b : s1.bitrate < 2147483648)
    (hb2a : -9223372036854775808 ≤ s2.bitrate * 1000)
    (hb2b : s2.bitrate * 1000 < 9223372036854775808)
    (hne : s1.bitrate ≠ s2.bitrate) :
    (ffmpeg_amf_reconfigure (ffmpeg_amf_update freshContext s1 voi) s2).2.rc_min_rate
      = s1.bitrate * 1000 ∧
    (ffmpeg_amf_reconfigure (ffmpeg_amf_update freshContext s1 voi) s2).2.bit_rate
      = s2.bitrate * 1000 ∧
    (ffmpeg_amf_reconfigure (ffmpeg_amf_update freshContext s1 voi) s2).2.rc_max_rate
      = s2.bitrate * 1000 ∧
    (ffmpeg_amf_reconfigure (ffmpeg_amf_update freshContext s1 voi) s2).2.rc_min_rate
      ≠ (ffmpeg_amf_reconfigure (ffmpeg_amf_update freshContext s1 voi) s2).2.rc_max_rate := by
  have hb : wrap32 s1.bitrate = s1.bitrate := wrap32_eq_self _ hb1a hb1b
  have hr : wrap64 (s2.bitrate * 1000) = s2.bitrate * 1000 := wrap64_eq_self _ hb2a hb2b
  refine ⟨?_, ?_, ?_, ?_⟩ <;>
    simp [ffmpeg_amf_reconfigure, ffmpeg_amf_update, hc1, hv1, hc2, hb, hr]
  omega

theorem amf_reconfigure_min_max_divergence_witness :
    (ffmpeg_amf_reconfigure
        (ffmpeg_amf_update freshContext ⟨"CBR", 2500, 20, 2⟩ ⟨30000, 1001, 1920, 1080⟩)
        ⟨"CBR", 6000, 20, 2⟩).2.rc_min_rate = 2500 * 1000 ∧
    (ffmpeg_amf_reconfigure
        (ffmpeg_amf_update freshContext ⟨"CBR", 2500, 20, 2⟩ ⟨30000, 1001, 1920, 1080⟩)
        ⟨"CBR", 6000, 20, 2⟩).2.rc_max_rate = 6000 * 1000 :=
  ⟨(amf_reconfigure_min_max_divergence ⟨"CBR", 2500, 20, 2⟩ ⟨"CBR", 6000, 20, 2⟩
      ⟨30000, 1001, 1920, 1080⟩ (by decide) (by decide) (by decide) (by decide)
      (by decide) (by decide) (by decide) (by decide)).1,
   (amf_reconfigure_min_max_divergence ⟨"CBR", 2500, 20, 2⟩ ⟨"CBR", 6000, 20, 2⟩
      ⟨30000, 1001, 1920, 1080⟩ (by decide) (by decide) (by decide) (by decide)
      (by decide) (by decide) (by decide) (by decide)).2.2.1⟩

/-! ## Claim C4: EAGAIN / EOF and zero-size packets are not errors -/

/-- C4: an EAGAIN ("no packet ready yet") or EOF ("session drained") result
from packet retrieval makes `encode` return success with no packet produced;
any other negative result from submit or retrieval makes `encode` fail; a
retrieved packet of zero size also yields success with no packet produced. -/
theorem amf_encode_error_handling (st : EncState) (io : EncodeIO) :
    (io.sendRet = 0 → (io.recvRet = AVERROR_EAGAIN ∨ io.recvRet = AVERROR_EOF) →
      ffmpeg_amf_encode st io = some (st, none)) ∧
    (io.sendRet < 0 → io.sendRet ≠ AVERROR_EAGAIN → io.sendRet ≠ AVERROR_EOF →
      ffmpeg_amf_encode st io = none) ∧
    (io.sendRet = 0 → io.recvRet < 0 →
      io.recvRet ≠ AVERROR_EAGAIN → io.recvRet ≠ AVERROR_EOF →
      ffmpeg_amf_encode st io = none) ∧
    (io.sendRet = 0 → io.recvRet = 0 → io.recvPkt.data = [] →
      ffmpeg_amf_encode st io = some (st, none)) := by
  refine ⟨fun h1 h2 => ?_, fun h1 h2 h3 => ?_, fun h1 h2 h3 h4 => ?_,
          fun h1 h2 h3 => ?_⟩
  · rcases h2 with h2 | h2 <;>
      simp [ffmpeg_amf_encode, h1, h2, AVERROR_EAGAIN, AVERROR_EOF]
  · have hs : ¬io.sendRet = 0 := by omega
    simp [ffmpeg_amf_encode, hs, h1, h2, h3]
  · simp [ffmpeg_amf_encode, h1, h2, h3, h4]
  · simp [ffmpeg_amf_encode, h1, h2, h3]

theorem amf_encode_error_handling_witness :
    ffmpeg_amf_encode freshEncState ⟨0, AVERROR_EAGAIN, emptyAVPacket, []⟩
      = some (freshEncState, none) :=
  (amf_encode_error_handling freshEncState ⟨0, AVERROR_EAGAIN, emptyAVPacket, []⟩).1
    rfl (Or.inl rfl)

/-! ## Claim C3: the header buffer is captured exactly once -/

theorem runTrace_cons (st : EncState) (io : EncodeIO) (t : List EncodeIO) :
    runTrace st (io :: t) = runTrace (encodeStep st io) t := rfl

/-- Characterization of one encode step's effect on the session state:
a producing call captures the header (on the first packet) and overwrites
the output buffer; every other call leaves the state unchanged. -/
theorem encodeStep_eq (st : EncState) (io : EncodeIO) :
    encodeStep st io =
      if producesB io then
        { first_packet := false
          header :=
            if st.first_packet then
              (if io.extradata.length ≠ 0 then io.extradata else st.header)
            else st.header
          buffer := io.recvPkt.data }
      else st := by
  by_cases hs : io.sendRet = 0
  · by_cases hr : io.recvRet = 0
    · by_cases hd : io.recvPkt.data.length = 0
      · simp [encodeStep, ffmpeg_amf_encode, producesB, hs, hr, hd,
              AVERROR_EOF, AVERROR_EAGAIN]
      · by_cases hf : st.first_packet = true
        · simp [encodeStep, ffmpeg_amf_encode, producesB, hs, hr, hd, hf,
                AVERROR_EOF, AVERROR_EAGAIN]
        · simp [encodeStep, ffmpeg_amf_encode, producesB, hs, hr, hd, hf,
                AVERROR_EOF, AVERROR_EAGAIN]
    · by_cases hEOF : io.recvRet = (-541478725 : ℤ)
      · simp [encodeStep, ffmpeg_amf_encode, producesB, hs, hr, hEOF,
              AVERROR_EOF, AVERROR_EAGAIN]
      · by_cases hEA : io.recvRet = (-11 : ℤ)
        · simp [encodeStep, ffmpeg_amf_encode, producesB, hs, hr, hEA,
                AVERROR_EOF, AVERROR_EAGAIN]
        · by_cases hlt : io.recvRet < 0
          · simp [encodeStep, ffmpeg_amf_encode, producesB, hs, hr, hEOF, hEA, hlt,
                  AVERROR_EOF, AVERROR_EAGAIN]
          · simp [encodeStep, ffmpeg_amf_encode, producesB, hs, hr, hEOF, hEA, hlt,
                  AVERROR_EOF, AVERROR_EAGAIN]
  · by_cases hEOF : io.sendRet = (-541478725 : ℤ)
    · simp [encodeStep, ffmpeg_amf_encode, producesB, hs, hEOF,
            AVERROR_EOF, AVERROR_EAGAIN]
    · by_cases hEA : io.sendRet = (-11 : ℤ)
      · simp [encodeStep, ffmpeg_amf_encode, producesB, hs, hEA,
              AVERROR_EOF, AVERROR_EAGAIN]
      · by_cases hlt : io.sendRet < 0
        · simp [encodeStep, ffmpeg_amf_encode, producesB, hs, hEOF, hEA, hlt,
                AVERROR_EOF, AVERROR_EAGAIN]
        · simp [encodeStep, ffmpeg_amf_encode, producesB, hs, hEOF, hEA, hlt,
                AVERROR_EOF, AVERROR_EAGAIN]

theorem encodeStep_header_of_not_first (st : EncState) (io : EncodeIO)
    (h : st.first_packet = false) :
    (encodeStep st io).header = st.header ∧
    (encodeStep st io).first_packet = false := by
  rw [encodeStep_eq]
  by_cases hp : producesB io = true
  · simp [hp, h]
  · simp [hp, h]

theorem encodeStep_of_not_produces (st : EncState) (io : EncodeIO)
    (h : producesB io = false) : encodeStep st io = st := by
  rw [encodeStep_eq, if_neg]
  simp [h]

theorem runTrace_header_of_not_first (st : EncState) (t : List EncodeIO)
    (h : st.first_packet = false) :
    (runTrace st t).header = st.header ∧
    (runTrace st t).first_packet = false := by
  induction t generalizing st with
  | nil => exact ⟨rfl, h⟩
  | cons io t ih =>
    rw [runTrace_cons]
    have step := encodeStep_header_of_not_first st io h
    have rest := ih (encodeStep st io) step.2
    exact ⟨rest.1.trans step.1, rest.2⟩

theorem encodeStep_of_produces (st : EncState) (io : EncodeIO)
    (h : producesB io = true) (hf : st.first_packet = true)
    (hh : st.header = []) :
    (encodeStep st io).header = io.extradata ∧
    (encodeStep st io).first_packet = false := by
  rw [encodeStep_eq, if_pos h]
  refine ⟨?_, rfl⟩
  by_cases he : io.extradata.length ≠ 0
  · simp [hf, he]
  · have : io.extradata = [] := by
      simpa using he
    simp [hf, he, hh, this]

/-- C3: across every sequence of encode calls starting from a fresh session,
the header buffer ends up holding exactly the extradata exposed at the first
call that produced a non-empty packet (empty if no call produced one), and
once a packet has been produced no further encode call changes the header. -/
theorem amf_header_captured_once (t : List EncodeIO) (io : EncodeIO) :
    (runTrace freshEncState t).header
      = ((t.find? producesB).map EncodeIO.extradata).getD [] ∧
    ((runTrace freshEncState t).first_packet = false →
      (encodeStep (runTrace freshEncState t) io).header
        = (runTrace freshEncState t).header) := by
  have main : ∀ (u : List EncodeIO),
      (runTrace freshEncState u).header
        = ((u.find? producesB).map EncodeIO.extradata).getD [] ∧
      ((runTrace freshEncState u).first_packet = false →
        ∀ io2, (encodeStep (runTrace freshEncState u) io2).header
          = (runTrace freshEncState u).header) := by
    intro u
    induction u with
    | nil =>
      refine ⟨rfl, fun h => ?_⟩
      simp [runTrace, freshEncState] at h
    | cons io1 u1 ih =>
      rw [runTrace_cons]
      by_cases hp : producesB io1 = true
      · have st1 := encodeStep_of_produces freshEncState io1 hp rfl rfl
        have rest := runTrace_header_of_not_first (encodeStep freshEncState io1) u1 st1.2
        constructor
        · rw [rest.1, st1.1, List.find?_cons_of_pos _ hp]
          rfl
        · intro _ io2
          exact (encodeStep_header_of_not_first _ io2 rest.2).1
      · have hp' : producesB io1 = false := by simpa using hp
        have heq : encodeStep freshEncState io1 = freshEncState :=
          encodeStep_of_not_produces freshEncState io1 hp'
        rw [heq, List.find?_cons_of_neg _ (by simp [hp'])]
        exact ih
  exact ⟨(main t).1, fun h => (main t).2 h io⟩

theorem amf_header_captured_once_witness :
    (runTrace freshEncState
        [⟨0, AVERROR_EAGAIN, emptyAVPacket, []⟩,
         ⟨0, 0, ⟨[7, 8], 0, 0, 1⟩, [1, 2, 3]⟩,
         ⟨0, 0, ⟨[9], 1, 1, 0⟩, [4, 5, 6]⟩]).header = [1, 2, 3] :=
  (amf_header_captured_once
      [⟨0, AVERROR_EAGAIN, emptyAVPacket, []⟩,
       ⟨0, 0, ⟨[7, 8], 0, 0, 1⟩, [1, 2, 3]⟩,
       ⟨0, 0, ⟨[9], 1, 1, 0⟩, [4, 5, 6]⟩]
      ⟨0, 0, ⟨[9], 1, 1, 0⟩, [4, 5, 6]⟩).1.trans (by decide)

/-! ## Claim C5: plane copy -/

theorem copyRows_in (dst src : ℕ → ℕ) (dstStride srcStride bytes : ℕ)
    (hbs : bytes ≤ dstStride) :
    ∀ rows y c, y < rows → c < bytes →
      copyRows dst src dstStride srcStride bytes rows (y * dstStride + c)
        = src (y * srcStride + c) := by
  intro rows
  induction rows with
  | zero => intro y c hy _; omega
  | succ r ih =>
    intro y c hy hc
    by_cases hyr : y = r
    · subst hyr
      have h1 : y * dstStride ≤ y * dstStride + c := Nat.le_add_right _ _
      have h2 : y * dstStride + c < y * dstStride + bytes := by omega
      simp only [copyRows, if_pos (And.intro h1 h2)]
      congr 1
      omega
    · have hlt : y < r := by omega
      have hout : ¬(r * dstStride ≤ y * dstStride + c ∧
          y * dstStride + c < r * dstStride + bytes) := by
        have hle : (y + 1) * dstStride ≤ r * dstStride :=
          Nat.mul_le_mul_right _ (by omega)
        have hstep : (y + 1) * dstStride = y * dstStride + dstStride := by ring
        omega
      simp only [copyRows, if_neg hout]
      exact ih y c hlt hc

theorem copyRows_out (dst src : ℕ → ℕ) (dstStride srcStride bytes : ℕ) :
    ∀ rows i, (∀ y, y < rows → ¬(y * dstStride ≤ i ∧ i < y * dstStride + bytes)) →
      copyRows dst src dstStride srcStride bytes rows i = dst i := by
  intro rows
  induction rows with
  | zero => intro i _; rfl
  | succ r ih =>
    intro i hout
    simp only [copyRows, if_neg (hout r (Nat.lt_succ_self r))]
    exact ih i fun y hy => hout y (Nat.lt_succ_of_lt hy)

theorem copyRows_reads_only (dst src src2 : ℕ → ℕ)
    (dstStride srcStride bytes : ℕ) :
    ∀ rows, (∀ y c, y < rows → c < bytes →
        src2 (y * srcStride + c) = src (y * srcStride + c)) →
      ∀ i, copyRows dst src2 dstStride srcStride bytes rows i
        = copyRows dst src dstStride srcStride bytes rows i := by
  intro rows
  induction rows with
  | zero => intro _ i; rfl
  | succ r ih =>
    intro hagree i
    simp only [copyRows]
    by_cases hin : r * dstStride ≤ i ∧ i < r * dstStride + bytes
    · simp only [if_pos hin]
      exact hagree r (i - r * dstStride) (Nat.lt_succ_self r) (by omega)
    · simp only [if_neg hin]
      exact ih (fun y c hy hc => hagree y c (Nat.lt_succ_of_lt hy) hc) i

/-- C5: for each plane present in the source, `copy_data` copies exactly
`min(src_row_stride, dst_row_stride)` bytes per row for the
chroma-subsampled plane height derived from the destination pixel format
(full height for plane 0, height shifted by the vertical chroma shift
otherwise), leaving the destination byte-identical to the source inside
that overlap, touching no destination byte outside it, reading no source
byte outside it, and leaving planes absent from the source unchanged. -/
theorem amf_copy_data_correct (pic : AVFrameBuf) (frame : EncoderFrame)
    (height : ℕ) (format : AVPixelFormat) (plane : ℕ)
    (hp : plane < MAX_AV_PLANES) :
    (frame.data plane = none →
      (copy_data pic frame height format).data plane = pic.data plane) ∧
    (∀ src, frame.data plane = some src →
      (∀ y c, y < planeHeight height format plane →
          c < min (frame.linesize plane) (pic.linesize plane) →
          (copy_data pic frame height format).data plane
              (y * pic.linesize plane + c)
            = src (y * frame.linesize plane + c)) ∧
      (∀ i, (∀ y c, y < planeHeight height format plane →
            c < min (frame.linesize plane) (pic.linesize plane) →
            i ≠ y * pic.linesize plane + c) →
          (copy_data pic frame height format).data plane i = pic.data plane i) ∧
      (∀ src2, (∀ y c, y < planeHeight height format plane →
            c < min (frame.linesize plane) (pic.linesize plane) →
            src2 (y * frame.linesize plane + c) = src (y * frame.linesize plane + c)) →
          ∀ i, copyRows (pic.data plane) src2 (pic.linesize plane)
                (frame.linesize plane)
                (min (frame.linesize plane) (pic.linesize plane))
                (planeHeight height format plane) i
            = copyRows (pic.data plane) src (pic.linesize plane)
                (frame.linesize plane)
                (min (frame.linesize plane) (pic.linesize plane))
                (planeHeight height format plane) i)) := by
  have hmin : ∀ a b : ℕ, (if a < b then a else b) = min a b := fun a b => by
    by_cases h : a < b <;> simp [h] <;> omega
  constructor
  · intro hnone
    simp [copy_data, hp, hnone]
  · intro src hsome
    have hgoal : (copy_data pic frame height format).data plane
        = copyRows (pic.data plane) src (pic.linesize plane) (frame.linesize plane)
            (min (frame.linesize plane) (pic.linesize plane))
            (planeHeight height format plane) := by
      simp [copy_data, hp, hsome, hmin]
    refine ⟨fun y c hy hc => ?_, fun i hout => ?_, fun src2 hagree i => ?_⟩
    · rw [hgoal]
      exact copyRows_in (pic.data plane) src _ _ _ (Nat.min_le_right _ _) _ y c hy hc
    · rw [hgoal]
      refine copyRows_out (pic.data plane) src _ _ _ _ i fun y hy hin => ?_
      have hbs : min (frame.linesize plane) (pic.linesize plane) ≤ pic.linesize plane :=
        Nat.min_le_right _ _
      exact hout y (i - y * pic.linesize plane) hy (by omega) (by omega)
    · exact copyRows_reads_only (pic.data plane) src src2 _ _ _ _
        (fun y c hy hc => hagree y c hy hc) i

/-- Concrete source plane for the C5 witness. -/
def srcPlaneW : ℕ → ℕ := fun i => i

/-- Concrete destination frame for the C5 witness (stride 6 on every plane). -/
def picW : AVFrameBuf := ⟨fun _ => fun _ => 0, fun _ => 6⟩

/-- Concrete source frame for the C5 witness: only plane 1 present, stride 4. -/
def frameW : EncoderFrame :=
  ⟨fun plane => if plane = 1 then some srcPlaneW else none, fun _ => 4⟩

theorem amf_copy_data_correct_witness :
    (copy_data picW frameW 4 AVPixelFormat.nv12).data 1 (1 * 6 + 2)
      = srcPlaneW (1 * 4 + 2) :=
  (((amf_copy_data_correct picW frameW 4 AVPixelFormat.nv12 1 (by decide)).2
      srcPlaneW rfl).1) 1 2 (by decide) (by decide)

/-! ## Claim C7: destroy drains and frees -/

theorem drainFuel_drains (l : List AVPacket) :
    (drainFuel (l.length + 1) ⟨l⟩).1.pending = [] ∧
    (drainFuel (l.length + 1) ⟨l⟩).2 = l := by
  induction l with
  | nil =>
    constructor <;> simp [drainFuel, receive_packet, AVERROR_EOF]
  | cons p rest ih =>
    have hstep : drainFuel (rest.length + 1 + 1) ⟨p :: rest⟩
        = ((drainFuel (rest.length + 1) ⟨rest⟩).1,
           p :: (drainFuel (rest.length + 1) ⟨rest⟩).2) := by
      simp [drainFuel, receive_packet]
    constructor
    · simpa [List.length_cons, hstep] using ih.1
    · simpa [List.length_cons, hstep] using ih.2

/-- C7: `ffmpeg_amf_destroy` on an initialized session retrieves every
packet still queued in the session until it reports no more output,
discarding all of them (they are returned to no caller), and in every case
(initialized or not) releases the frame buffer, output buffer, header
buffer, codec session and encoder struct, leaving zero outstanding
allocations. -/
theorem amf_destroy_drains_and_frees (enc : AMFEncoder) :
    outstandingAllocs (ffmpeg_amf_destroy enc).1 = 0 ∧
    (ffmpeg_amf_destroy enc).1.pending = [] ∧
    (enc.initialized = true → (ffmpeg_amf_destroy enc).2 = enc.pending) ∧
    (enc.initialized = false → (ffmpeg_amf_destroy enc).2 = []) := by
  refine ⟨?_, ?_, fun h => ?_, fun h => ?_⟩
  · simp [ffmpeg_amf_destroy, outstandingAllocs]
  · simp [ffmpeg_amf_destroy]
  · simp [ffmpeg_amf_destroy, h, (drainFuel_drains enc.pending).2]
  · simp [ffmpeg_amf_destroy, h]

theorem amf_destroy_drains_and_frees_witness :
    (ffmpeg_amf_destroy
        { structAlloc := true, contextAlloc := true,
          pending := [⟨[5, 6], 0, 0, 1⟩, ⟨[7], 1, 1, 0⟩],
          vframeAlloc := true, buffer := [1], header := [2],
          first_packet := false, initialized := true }).2
      = [⟨[5, 6], 0, 0, 1⟩, ⟨[7], 1, 1, 0⟩] :=
  (amf_destroy_drains_and_frees
      { structAlloc := true, contextAlloc := true,
        pending := [⟨[5, 6], 0, 0, 1⟩, ⟨[7], 1, 1, 0⟩],
        vframeAlloc := true, buffer := [1], header := [2],
        first_packet := false, initialized := true }).2.2.1 rfl

/-! ## Claim C8: create failure paths tear down fully -/

/-- C8: whenever the codec is not found, the context cannot be allocated,
the session fails to open, the frame cannot be allocated, or its buffer
cannot be allocated, `ffmpeg_amf_create` returns null having torn down the
partial construction (zero allocations left behind); and
`ffmpeg_amf_destroy` is safe on every partially constructed session,
releasing everything it holds. -/
theorem amf_create_failure_teardown (env : CreateEnv) :
    ((env.codecFound = false ∨ env.contextAllocOk = false ∨ env.openRet < 0 ∨
      env.vframeAllocOk = false ∨ env.frameBufRet < 0) →
      (ffmpeg_amf_create env).1 = none ∧ (ffmpeg_amf_create env).2 = 0) ∧
    (∀ enc, outstandingAllocs (ffmpeg_amf_destroy enc).1 = 0) := by
  refine ⟨fun h => ?_, fun enc => ?_⟩
  · by_cases hcf : env.codecFound = true
    · by_cases hctx : env.contextAllocOk = true
      · by_cases hopen : env.openRet < 0
        · constructor <;>
            simp [ffmpeg_amf_create, ffmpeg_amf_init_codec, ffmpeg_amf_destroy,
                  outstandingAllocs, hcf, hctx, hopen]
        · by_cases hvf : env.vframeAllocOk = true
          · by_cases hbuf : env.frameBufRet < 0
            · constructor <;>
                simp [ffmpeg_amf_create, ffmpeg_amf_init_codec, ffmpeg_amf_destroy,
                      outstandingAllocs, hcf, hctx, hopen, hvf, hbuf]
            · exfalso
              rcases h with h | h | h | h | h <;> simp_all
          · constructor <;>
              simp [ffmpeg_amf_create, ffmpeg_amf_init_codec, ffmpeg_amf_destroy,
                    outstandingAllocs, hcf, hctx, hopen, hvf]
      · constructor <;>
          simp [ffmpeg_amf_create, ffmpeg_amf_destroy, outstandingAllocs, hcf, hctx]
    · constructor <;>
        simp [ffmpeg_amf_create, ffmpeg_amf_destroy, outstandingAllocs, hcf]
  · simp [ffmpeg_amf_destroy, outstandingAllocs]

theorem amf_create_failure_teardown_witness :
    (ffmpeg_amf_create ⟨true, true, -22, true, 0⟩).1 = none ∧
    (ffmpeg_amf_create ⟨true, true, -22, true, 0⟩).2 = 0 :=
  (amf_create_failure_teardown ⟨true, true, -22, true, 0⟩).1
    (Or.inr (Or.inr (Or.inl (by decide))))

end ObsFfmpegAmf
